import Mathlib

/-!
Shallow embedding of the borrow/return lifecycle engine of the library
lending tracker (source: `library/api/models.py`, `library/api/serializers.py`,
`library/api/signals.py`).

Modelling conventions:
* Django datetimes are modelled as `Int` seconds; `timedelta(days=n)` is
  `n * 86400` seconds and Python's `timedelta.days` is floor division by
  86400 (`Int.fdiv`), matching Python's floor semantics for `//`.
* The database tables are lists of records; primary-key lookup
  (`Model.objects.get` / `PrimaryKeyRelatedField`) is `List.find?` on the id,
  and a row update (`obj.save()` on a fetched row) replaces every row with
  the same id.
* `transaction.atomic` blocks that raise are modelled by returning the
  pre-transaction state unchanged (rollback).
* `timezone.now()` within one request is modelled as a single instant `now`
  passed to the operation.
* The `post_save` signal of `Borrow` is a function called on every save of a
  Borrow row with the `created` flag; the outgoing mail box (`mail.outbox`)
  is part of the state.  The `strftime` formatting of the due date in the
  message body is abstracted: the notification record carries the due date
  value itself.
-/

/-- `Book` model (`models.py`): `total_copies` and `available_copies` are
integer fields; we use `Int` so that the non-negativity claims are real
statements about the arithmetic in `serializers.py`. -/
structure Book where
  id : Nat
  title : String
  total_copies : Int
  available_copies : Int
deriving DecidableEq, Repr

/-- `User` model (`models.py`): only the fields the core reads. -/
structure User where
  id : Nat
  username : String
  email : String
  penalty_points : Int
deriving DecidableEq, Repr

/-- `Borrow` model (`models.py`): `return_date` is nullable
(`null = active/open`). -/
structure Borrow where
  id : Nat
  user_id : Nat
  book_id : Nat
  borrow_date : Int
  due_date : Int
  return_date : Option Int
deriving DecidableEq, Repr

/-- One email handed to `send_mail` by the `post_save` receiver in
`signals.py` (body date formatting abstracted, see module docstring). -/
structure Notification where
  to_addr : String
  subject : String
  username : String
  book_title : String
  due_date : Int
deriving DecidableEq, Repr

/-- The persisted state plus the mail outbox.  `next_borrow_id` models the
autoincrement primary key of the `Borrow` table. -/
structure LibState where
  books : List Book
  users : List User
  borrows : List Borrow
  next_borrow_id : Nat
  outbox : List Notification
deriving DecidableEq, Repr

/-- Errors of `BorrowSerializer` (field validation of `book_id` plus the
checks of `validate`, in source order) and of the `post_save` receiver
surfacing through `create`. -/
inductive BorrowError where
  | BookNotFound
  | NotAuthenticated
  | PenaltyLimitExceeded
  | BorrowLimitExceeded
  | OutOfStock
  | InvalidNotificationTarget
deriving DecidableEq, Repr

/-- Errors of `ReturnSerializer.validate_borrow_id`. -/
inductive ReturnError where
  | InvalidOrAlreadyReturned
  | NotOwner
deriving DecidableEq, Repr

/-- Errors raised by the `post_save` receiver (`signals.py` lines 14-17). -/
inductive NotifError where
  | MissingEmail
  | InvalidEmail
deriving DecidableEq, Repr

/-- Seconds in a day; Python `timedelta(days = n)` is `n * secondsPerDay`. -/
def secondsPerDay : Int := 86400

/-- Characters allowed in the local part of the email regex in
`signals.py` line 16: `[a-zA-Z0-9._%+-]`. -/
def isLocalChar (c : Char) : Bool :=
  c.isAlphanum || c == '.' || c == '_' || c == '%' || c == '+' || c == '-'

/-- Characters allowed in the domain part of the regex: `[a-zA-Z0-9.-]`. -/
def isDomainChar (c : Char) : Bool :=
  c.isAlphanum || c == '.' || c == '-'

/-- Split a character list at the first occurrence of `ch`; `none` when
`ch` does not occur. -/
def splitAtFirst (ch : Char) : List Char → Option (List Char × List Char)
  | [] => none
  | c :: cs =>
    if c == ch then some ([], cs)
    else
      match splitAtFirst ch cs with
      | some (l, r) => some (c :: l, r)
      | none => none

/-- Matcher for the part of the regex after the `@`:
`[a-zA-Z0-9.-]+\.[a-zA-Z]\x7b2,\x7d$`.  With backtracking, this matches
exactly when the maximal alphabetic suffix has length at least two, is
preceded by a literal dot, and everything before that dot is a nonempty
run of domain characters. -/
def domainMatches (rest : List Char) : Bool :=
  let r := rest.reverse
  let tld := r.takeWhile Char.isAlpha
  decide (2 ≤ tld.length) &&
    match r.drop tld.length with
    | '.' :: d => !d.isEmpty && d.all isDomainChar
    | _ => false

/-- The full email check of `signals.py`: `re.match` of
`^[a-zA-Z0-9._%+-]+@[a-zA-Z0-9.-]+\.[a-zA-Z]\x7b2,\x7d$`.  The classes on
both sides of the `@` exclude `@`, so the matched `@` is the unique one. -/
def emailValid (email : String) : Bool :=
  match splitAtFirst '@' email.toList with
  | some (l, r) => !l.isEmpty && l.all isLocalChar && domainMatches r
  | none => false

/-- `post_save` receiver `send_due_date_notification` (`signals.py`).
Acts only when `created`; first rejects a missing email, then a malformed
one, otherwise builds the confirmation message.  Returns the list of
messages to append to the outbox. -/
def send_due_date_notification (created : Bool) (user : User) (borrow : Borrow)
    (book : Book) : Except NotifError (List Notification) :=
  if created then
    if user.email == "" then Except.error NotifError.MissingEmail
    else if !emailValid user.email then Except.error NotifError.InvalidEmail
    else
      Except.ok [{ to_addr := user.email,
                   subject := "Borrow Confirmation: " ++ book.title,
                   username := user.username,
                   book_title := book.title,
                   due_date := borrow.due_date }]
  else Except.ok []

/-- `Book.objects.get(id = bookId)` / `PrimaryKeyRelatedField` lookup. -/
def findBook (books : List Book) (bookId : Nat) : Option Book :=
  books.find? (fun b => b.id == bookId)

/-- Row update of a fetched `Book` (`book.save()`): replace the row(s) with
the same primary key. -/
def updateBook (books : List Book) (b : Book) : List Book :=
  books.map (fun x => if x.id == b.id then b else x)

/-- `User` lookup by primary key. -/
def findUser (users : List User) (userId : Nat) : Option User :=
  users.find? (fun u => u.id == userId)

/-- `user.save()`. -/
def updateUser (users : List User) (u : User) : List User :=
  users.map (fun x => if x.id == u.id then u else x)

/-- `Borrow.objects.get(id = value, return_date__isnull = True)`
(`validate_borrow_id`). -/
def findOpenBorrow (borrows : List Borrow) (borrowId : Nat) : Option Borrow :=
  borrows.find? (fun b => b.id == borrowId && b.return_date.isNone)

/-- `Borrow.objects.get(id = value)` (the re-fetch in `ReturnSerializer.save`,
which does not repeat the open-state filter). -/
def findBorrow (borrows : List Borrow) (borrowId : Nat) : Option Borrow :=
  borrows.find? (fun b => b.id == borrowId)

/-- `borrow.save()` on a fetched row. -/
def updateBorrow (borrows : List Borrow) (b : Borrow) : List Borrow :=
  borrows.map (fun x => if x.id == b.id then b else x)

/-- `Borrow.objects.filter(user = user, return_date__isnull = True).count()`. -/
def openBorrowCount (borrows : List Borrow) (userId : Nat) : Nat :=
  (borrows.filter (fun b => b.user_id == userId && b.return_date.isNone)).length

/-- Number of open borrows of one book (used by the inventory invariant). -/
def openCountForBook (borrows : List Borrow) (bookId : Nat) : Nat :=
  (borrows.filter (fun b => b.book_id == bookId && b.return_date.isNone)).length

/-- `BorrowSerializer` validation: the `book_id` field lookup
(`PrimaryKeyRelatedField`, runs before `validate`) and then the checks of
`validate` (`serializers.py` lines 74-94) in source order:
authentication, penalty threshold, active-borrow cap, availability. -/
def borrowValidate (s : LibState) (userId bookId : Nat) :
    Except BorrowError (User × Book) :=
  match findBook s.books bookId with
  | none => Except.error BorrowError.BookNotFound
  | some book =>
    match findUser s.users userId with
    | none => Except.error BorrowError.NotAuthenticated
    | some user =>
      if 50 ≤ user.penalty_points then
        Except.error BorrowError.PenaltyLimitExceeded
      else if 3 ≤ openBorrowCount s.borrows userId then
        Except.error BorrowError.BorrowLimitExceeded
      else if book.available_copies ≤ 0 then
        Except.error BorrowError.OutOfStock
      else Except.ok (user, book)

/-- `BorrowSerializer.create` (`serializers.py` lines 96-108): inside
`transaction.atomic`, decrement the book, create the `Borrow` with
`borrow_date = now` and `due_date = now + timedelta(days = 14)`;
`Borrow.objects.create` fires the `post_save` receiver with
`created = True`, and a `ValidationError` from it rolls the whole
transaction back. -/
def borrowCreate (s : LibState) (user : User) (book : Book) (now : Int) :
    LibState × Except BorrowError Borrow :=
  let book2 : Book := { book with available_copies := book.available_copies - 1 }
  let borrow : Borrow :=
    { id := s.next_borrow_id, user_id := user.id, book_id := book.id,
      borrow_date := now, due_date := now + 14 * secondsPerDay,
      return_date := none }
  match send_due_date_notification true user borrow book2 with
  | Except.error _ => (s, Except.error BorrowError.InvalidNotificationTarget)
  | Except.ok msgs =>
    ({ s with books := updateBook s.books book2,
              borrows := s.borrows ++ [borrow],
              next_borrow_id := s.next_borrow_id + 1,
              outbox := s.outbox ++ msgs },
     Except.ok borrow)

/-- The `CreateBorrow` operation: serializer validation followed by
`create`; a validation failure leaves the state untouched. -/
def createBorrow (s : LibState) (userId bookId : Nat) (now : Int) :
    LibState × Except BorrowError Borrow :=
  match borrowValidate s userId bookId with
  | Except.error e => (s, Except.error e)
  | Except.ok (user, book) => borrowCreate s user book now

/-- `ReturnSerializer.validate_borrow_id` (`serializers.py` lines 113-124):
fetch the borrow by id filtered to open rows (`DoesNotExist` for a missing
id and for an already-closed row are one merged branch), then the
ownership check. -/
def returnValidate (s : LibState) (userId borrowId : Nat) :
    Except ReturnError Borrow :=
  match findOpenBorrow s.borrows borrowId with
  | none => Except.error ReturnError.InvalidOrAlreadyReturned
  | some borrow =>
    if borrow.user_id ≠ userId then Except.error ReturnError.NotOwner
    else Except.ok borrow

/-- `ReturnSerializer.save` (`serializers.py` lines 126-139): inside
`transaction.atomic`, re-fetch the borrow by id only (no open-state
re-check), set `return_date = now`, increment the book, add
`max((return_date - due_date).days, 0) * 2` penalty points when late, and
save borrow, book and user.  The `borrow.save()` fires the `post_save`
receiver with `created = False`, which appends nothing to the outbox.
The `none` results (dangling borrow id or foreign keys) are unreachable
in states with referential integrity. -/
def returnSave (s : LibState) (borrowId : Nat) (now : Int) :
    LibState × Option Borrow :=
  match findBorrow s.borrows borrowId with
  | none => (s, none)
  | some borrow =>
    match findBook s.books borrow.book_id, findUser s.users borrow.user_id with
    | some book, some user =>
      let borrow2 : Borrow := { borrow with return_date := some now }
      let book2 : Book := { book with available_copies := book.available_copies + 1 }
      let user2 : User :=
        if borrow2.due_date < now then
          { user with penalty_points :=
              user.penalty_points + max (Int.fdiv (now - borrow2.due_date) secondsPerDay) 0 * 2 }
        else user
      ({ s with borrows := updateBorrow s.borrows borrow2,
                books := updateBook s.books book2,
                users := updateUser s.users user2 },
       some borrow2)
    | _, _ => (s, none)

/-- The `CreateReturn` operation: serializer validation then `save`. -/
def createReturn (s : LibState) (userId borrowId : Nat) (now : Int) :
    LibState × Except ReturnError Borrow :=
  match returnValidate s userId borrowId with
  | Except.error e => (s, Except.error e)
  | Except.ok _ =>
    match returnSave s borrowId now with
    | (s2, some b) => (s2, Except.ok b)
    | (s2, none) => (s2, Except.error ReturnError.InvalidOrAlreadyReturned)

/-- One request against the shared state. -/
inductive Op where
  | borrowOp (userId bookId : Nat) (now : Int)
  | returnOp (userId borrowId : Nat) (now : Int)
deriving DecidableEq, Repr

/-- The state reached after one request (errors leave the state as the
operations define). -/
def step (s : LibState) : Op → LibState
  | Op.borrowOp u b n => (createBorrow s u b n).1
  | Op.returnOp u b n => (createReturn s u b n).1

/-- Sequential execution of a list of requests. -/
def run (s : LibState) (ops : List Op) : LibState :=
  ops.foldl step s

/-- Inductive state invariant: borrow primary keys are distinct and below
the autoincrement counter, and for every book the available count is
non-negative and, together with the book's open borrows, bounded by
`total_copies`. -/
def LibInv (s : LibState) : Prop :=
  (s.borrows.map Borrow.id).Nodup ∧
  (∀ b ∈ s.borrows, b.id < s.next_borrow_id) ∧
  ∀ bk ∈ s.books, 0 ≤ bk.available_copies ∧
    bk.available_copies + (openCountForBook s.borrows bk.id : Int) ≤ bk.total_copies

instance (s : LibState) : Decidable (LibInv s) := by
  unfold LibInv; infer_instance
/-- Equality of operation results is decidable (used to evaluate the
operations on closed inputs). -/
instance {e a : Type} [DecidableEq e] [DecidableEq a] :
    DecidableEq (Except e a) := fun x y =>
  match x, y with
  | Except.error u, Except.error v =>
    if h : u = v then isTrue (by rw [h]) else isFalse (by simp [h])
  | Except.ok u, Except.ok v =>
    if h : u = v then isTrue (by rw [h]) else isFalse (by simp [h])
  | Except.error _, Except.ok _ => isFalse (by simp)
  | Except.ok _, Except.error _ => isFalse (by simp)



/-! ### Concrete sample data (used to evaluate the operations on closed
inputs) -/

/-- A sample user with a well-formed email address. -/
def wAlice : User :=
  { id := 1, username := "alice", email := "alice@example.com",
    penalty_points := 0 }

/-- A sample user at the penalty threshold. -/
def wBob : User :=
  { id := 2, username := "bob", email := "bob@example.com",
    penalty_points := 50 }

/-- A sample user with a malformed email address. -/
def wMallory : User :=
  { id := 3, username := "mallory", email := "bad", penalty_points := 0 }

/-- A sample book with all copies on the shelf. -/
def wBook : Book :=
  { id := 1, title := "B", total_copies := 5, available_copies := 5 }

/-- A fresh state: one book, one user, no borrows. -/
def wState : LibState :=
  { books := [wBook], users := [wAlice], borrows := [], next_borrow_id := 1,
    outbox := [] }

/-- The borrow record `createBorrow wState 1 1 1000` creates. -/
def wBorrow1 : Borrow :=
  { id := 1, user_id := 1, book_id := 1, borrow_date := 1000,
    due_date := 1000 + 14 * secondsPerDay, return_date := none }

/-- A state whose only user is at the penalty threshold. -/
def wStatePen : LibState :=
  { books := [wBook], users := [wBob], borrows := [], next_borrow_id := 1,
    outbox := [] }

/-- A state in which `wAlice` already has three open borrows. -/
def wStateLim : LibState :=
  { books := [wBook], users := [wAlice],
    borrows :=
      [{ id := 1, user_id := 1, book_id := 1, borrow_date := 0,
         due_date := 14 * secondsPerDay, return_date := none },
       { id := 2, user_id := 1, book_id := 1, borrow_date := 0,
         due_date := 14 * secondsPerDay, return_date := none },
       { id := 3, user_id := 1, book_id := 1, borrow_date := 0,
         due_date := 14 * secondsPerDay, return_date := none }],
    next_borrow_id := 4, outbox := [] }

/-- A state whose only book is out of stock. -/
def wStateZero : LibState :=
  { books := [{ id := 1, title := "B", total_copies := 5,
                available_copies := 0 }],
    users := [wAlice], borrows := [], next_borrow_id := 1, outbox := [] }

/-- A state whose only user has a malformed email address. -/
def wStateBad : LibState :=
  { books := [wBook], users := [wMallory], borrows := [],
    next_borrow_id := 1, outbox := [] }

/-- A state with one open borrow whose due date (time 0) is in the past. -/
def wStateLate : LibState :=
  { books := [{ id := 1, title := "B", total_copies := 5,
                available_copies := 4 }],
    users := [wAlice],
    borrows := [{ id := 1, user_id := 1, book_id := 1,
                  borrow_date := -(14 * secondsPerDay), due_date := 0,
                  return_date := none }],
    next_borrow_id := 2, outbox := [] }

/-- A state whose only borrow is already closed. -/
def wStateClosed : LibState :=
  { books := [wBook], users := [wAlice],
    borrows := [{ id := 1, user_id := 1, book_id := 1, borrow_date := 0,
                  due_date := 14 * secondsPerDay, return_date := some 5 }],
    next_borrow_id := 2, outbox := [] }

/-- A state with one open borrow, used for the concurrency schedule. -/
def wStateOneOpen : LibState :=
  { books := [{ id := 1, title := "B", total_copies := 5,
                available_copies := 4 }],
    users := [wAlice],
    borrows := [{ id := 1, user_id := 1, book_id := 1, borrow_date := 0,
                  due_date := 14 * secondsPerDay, return_date := none }],
    next_borrow_id := 2, outbox := [] }


/-! ### Helper lemmas about lookups, updates and counters -/

theorem findBook_eq_some (books : List Book) (i : Nat) (b : Book)
    (h : findBook books i = some b) : b ∈ books ∧ b.id = i := by
  refine ⟨List.mem_of_find?_eq_some h, ?_⟩
  have := List.find?_some h
  simpa using this

theorem findUser_eq_some (users : List User) (i : Nat) (u : User)
    (h : findUser users i = some u) : u ∈ users ∧ u.id = i := by
  refine ⟨List.mem_of_find?_eq_some h, ?_⟩
  have := List.find?_some h
  simpa using this

theorem findOpenBorrow_eq_some (borrows : List Borrow) (i : Nat) (b : Borrow)
    (h : findOpenBorrow borrows i = some b) :
    b ∈ borrows ∧ b.id = i ∧ b.return_date = none := by
  refine ⟨List.mem_of_find?_eq_some h, ?_⟩
  have := List.find?_some h
  simp only [Bool.and_eq_true, beq_iff_eq, Option.isNone_iff_eq_none] at this
  exact this

theorem findBorrow_eq_some (borrows : List Borrow) (i : Nat) (b : Borrow)
    (h : findBorrow borrows i = some b) : b ∈ borrows ∧ b.id = i := by
  refine ⟨List.mem_of_find?_eq_some h, ?_⟩
  have := List.find?_some h
  simpa using this

theorem mem_updateBook (books : List Book) (b x : Book)
    (h : x ∈ updateBook books b) : x = b ∨ (x ∈ books ∧ x.id ≠ b.id) := by
  rcases List.mem_map.mp h with ⟨a, ha, hax⟩
  by_cases hid : (a.id == b.id) = true
  · left; rw [← hax]; simp [hid]
  · right
    have hxa : x = a := by rw [← hax]; simp [hid]
    rw [hxa]
    exact ⟨ha, by simpa using hid⟩

theorem mem_updateBorrow (l : List Borrow) (b x : Borrow)
    (h : x ∈ updateBorrow l b) : x = b ∨ x ∈ l := by
  rcases List.mem_map.mp h with ⟨a, ha, hax⟩
  by_cases hid : (a.id == b.id) = true
  · left; rw [← hax]; simp [hid]
  · right
    rw [← hax]
    simp only [hid]
    simpa using ha

theorem updateBorrow_map_id (l : List Borrow) (b : Borrow) :
    (updateBorrow l b).map Borrow.id = l.map Borrow.id := by
  unfold updateBorrow
  rw [List.map_map]
  apply List.map_congr_left
  intro a _
  by_cases hid : (a.id == b.id) = true
  · have hab : a.id = b.id := beq_iff_eq.mp hid
    simp [Function.comp, hid, hab]
  · simp [Function.comp, hid]

theorem updateBorrow_eq_self (l : List Borrow) (b : Borrow)
    (h : ∀ x ∈ l, x.id ≠ b.id) : updateBorrow l b = l := by
  induction l with
  | nil => rfl
  | cons hd t ih =>
    have h1 : hd.id ≠ b.id := h hd (List.mem_cons_self hd t)
    simp only [updateBorrow, List.map_cons]
    rw [if_neg (by simpa using h1)]
    have : updateBorrow t b = t := ih (fun x hx => h x (List.mem_cons_of_mem hd hx))
    simpa [updateBorrow] using this

theorem mem_updateBorrow_of_ne (l : List Borrow) (b x : Borrow)
    (hx : x ∈ l) (hne : x.id ≠ b.id) : x ∈ updateBorrow l b := by
  have : (fun y : Borrow => if y.id == b.id then b else y) x = x := by
    simp [hne]
  rw [← this]
  exact List.mem_map_of_mem _ hx

theorem openCountForBook_append (l : List Borrow) (b : Borrow) (k : Nat) :
    openCountForBook (l ++ [b]) k =
      openCountForBook l k +
        (if (b.book_id == k && b.return_date.isNone) = true then 1 else 0) := by
  simp only [openCountForBook, List.filter_append]
  by_cases hb : (b.book_id == k && b.return_date.isNone) = true
  · simp [hb]
  · simp [hb]

theorem openCountForBook_cons (x : Borrow) (t : List Borrow) (k : Nat) :
    openCountForBook (x :: t) k =
      (if (x.book_id == k && x.return_date.isNone) = true then 1 else 0) +
        openCountForBook t k := by
  simp only [openCountForBook, List.filter_cons]
  by_cases hx : (x.book_id == k && x.return_date.isNone) = true
  · simp [hx, Nat.add_comm]
  · simp [hx]


theorem find?_map_update {α : Type} (key : α → Nat) (l : List α) (i : Nat) (a a2 : α)
    (hfind : l.find? (fun x => key x == i) = some a) (hid : key a2 = key a) :
    (l.map (fun x => if key x == key a2 then a2 else x)).find? (fun x => key x == i)
      = some a2 := by
  have hai : key a = i := by simpa using List.find?_some hfind
  induction l with
  | nil => simp at hfind
  | cons hd t ih =>
    by_cases hp : (key hd == i) = true
    · rw [List.find?_cons_of_pos (p := fun x => key x == i) t hp] at hfind
      have hb : hd = a := Option.some.inj hfind
      rw [List.map_cons]
      have h2 : (key hd == key a2) = true := by rw [hb, hid]; simp
      rw [if_pos h2]
      apply List.find?_cons_of_pos (p := fun x => key x == i)
      show (key a2 == i) = true
      have h3 : key a2 = i := by rw [hid, hai]
      simp [h3]
    · rw [List.find?_cons_of_neg (p := fun x => key x == i) t hp] at hfind
      rw [List.map_cons]
      have h2 : ¬ (key hd == key a2) = true := by
        rw [hid, hai]
        exact hp
      rw [if_neg h2]
      rw [List.find?_cons_of_neg (p := fun x => key x == i) _ hp]
      exact ih hfind

theorem findBook_updateBook (books : List Book) (i : Nat) (b b2 : Book)
    (hfind : findBook books i = some b) (hid : b2.id = b.id) :
    findBook (updateBook books b2) i = some b2 :=
  find?_map_update Book.id books i b b2 hfind hid

theorem findUser_updateUser (users : List User) (i : Nat) (u u2 : User)
    (hfind : findUser users i = some u) (hid : u2.id = u.id) :
    findUser (updateUser users u2) i = some u2 :=
  find?_map_update User.id users i u u2 hfind hid

theorem findOpenBorrow_imp_findBorrow (l : List Borrow) (i : Nat) (b : Borrow)
    (hnd : (l.map Borrow.id).Nodup)
    (h : findOpenBorrow l i = some b) : findBorrow l i = some b := by
  induction l with
  | nil => simp [findOpenBorrow] at h
  | cons hd t ih =>
    rw [List.map_cons, List.nodup_cons] at hnd
    obtain ⟨hhd, hndt⟩ := hnd
    by_cases hid : (hd.id == i) = true
    · by_cases hopen : hd.return_date.isNone = true
      · have hp : (hd.id == i && hd.return_date.isNone) = true := by
          simp [hid, hopen]
        have hb : hd = b := by
          unfold findOpenBorrow at h
          rw [List.find?_cons_of_pos
            (p := fun x => x.id == i && x.return_date.isNone) t hp] at h
          exact Option.some.inj h
        unfold findBorrow
        rw [List.find?_cons_of_pos (p := fun x => x.id == i) t hid, hb]
      · have hp : ¬ (hd.id == i && hd.return_date.isNone) = true := by
          simp [hopen]
        have hf : findOpenBorrow t i = some b := by
          unfold findOpenBorrow at h ⊢
          rwa [List.find?_cons_of_neg
            (p := fun x => x.id == i && x.return_date.isNone) t hp] at h
        obtain ⟨hmem, hbid, _⟩ := findOpenBorrow_eq_some t i b hf
        have : hd.id ∈ t.map Borrow.id := by
          have hdi : hd.id = i := beq_iff_eq.mp hid
          rw [hdi, ← hbid]
          exact List.mem_map_of_mem Borrow.id hmem
        exact absurd this hhd
    · have hp : ¬ (hd.id == i && hd.return_date.isNone) = true := by
        simp only [Bool.and_eq_true, not_and]
        intro hcon
        exact absurd hcon hid
      have hf : findOpenBorrow t i = some b := by
        unfold findOpenBorrow at h ⊢
        rwa [List.find?_cons_of_neg
          (p := fun x => x.id == i && x.return_date.isNone) t hp] at h
      unfold findBorrow
      rw [List.find?_cons_of_neg (p := fun x => x.id == i) t hid]
      exact ih hndt hf

theorem openCountForBook_close (l : List Borrow) (i : Nat) (borrow b2 : Borrow)
    (hnd : (l.map Borrow.id).Nodup)
    (hfind : findOpenBorrow l i = some borrow)
    (hid : b2.id = borrow.id)
    (hclosed : b2.return_date.isNone = false) (k : Nat) :
    openCountForBook l k =
      openCountForBook (updateBorrow l b2) k +
        (if borrow.book_id = k then 1 else 0) := by
  induction l with
  | nil => simp [findOpenBorrow] at hfind
  | cons hd t ih =>
    rw [List.map_cons, List.nodup_cons] at hnd
    obtain ⟨hhd, hndt⟩ := hnd
    by_cases hp : (hd.id == i && hd.return_date.isNone) = true
    · have hb : hd = borrow := by
        unfold findOpenBorrow at hfind
        rw [List.find?_cons_of_pos
          (p := fun x => x.id == i && x.return_date.isNone) t hp] at hfind
        exact Option.some.inj hfind
      simp only [Bool.and_eq_true, beq_iff_eq] at hp
      obtain ⟨hdi, hdopen⟩ := hp
      have hrep : (hd.id == b2.id) = true := by simp [hid, hb]
      have hupd : updateBorrow (hd :: t) b2 = b2 :: t := by
        unfold updateBorrow
        rw [List.map_cons, if_pos hrep]
        have hno : ∀ x ∈ t, x.id ≠ b2.id := by
          intro x hx hxe
          apply hhd
          have hxid : x.id = hd.id := by rw [hxe, hid, ← hb]
          rw [← hxid]
          exact List.mem_map_of_mem Borrow.id hx
        have := updateBorrow_eq_self t b2 hno
        unfold updateBorrow at this
        rw [this]
      rw [hupd, openCountForBook_cons, openCountForBook_cons]
      have hb2f : (b2.book_id == k && b2.return_date.isNone) = false := by
        simp [hclosed]
      by_cases hk : borrow.book_id = k
      · have hhdt : (hd.book_id == k && hd.return_date.isNone) = true := by
          rw [hb]
          simp [hk, hb ▸ hdopen]
        simp [hhdt, hb2f, hk, Nat.add_comm]
      · have hhdf : ¬ (hd.book_id == k && hd.return_date.isNone) = true := by
          rw [hb]
          simp only [Bool.and_eq_true, beq_iff_eq]
          intro hcon
          exact absurd hcon.1 hk
        simp [hhdf, hb2f, hk]
    · have hf : findOpenBorrow t i = some borrow := by
        unfold findOpenBorrow at hfind ⊢
        rwa [List.find?_cons_of_neg
          (p := fun x => x.id == i && x.return_date.isNone) t hp] at hfind
      obtain ⟨hmem, hbid, hbopen⟩ := findOpenBorrow_eq_some t i borrow hf
      have hhdne : hd.id ≠ i := by
        intro hcon
        apply hhd
        rw [hcon, ← hbid]
        exact List.mem_map_of_mem Borrow.id hmem
      have hkeep : ¬ (hd.id == b2.id) = true := by
        simp only [beq_iff_eq]
        rw [hid, hbid]
        exact hhdne
      have hupd : updateBorrow (hd :: t) b2 = hd :: updateBorrow t b2 := by
        unfold updateBorrow
        rw [List.map_cons, if_neg hkeep]
      rw [hupd, openCountForBook_cons, openCountForBook_cons]
      have := ih hndt hf
      omega

/-! ### Inversion of the validation paths -/

theorem borrowValidate_ok (s : LibState) (userId bookId : Nat) (user : User)
    (book : Book)
    (h : borrowValidate s userId bookId = Except.ok (user, book)) :
    findBook s.books bookId = some book ∧ findUser s.users userId = some user ∧
      user.penalty_points < 50 ∧ openBorrowCount s.borrows userId < 3 ∧
      0 < book.available_copies := by
  unfold borrowValidate at h
  split at h
  · exact absurd h (by simp)
  next book2 hfb =>
    split at h
    · exact absurd h (by simp)
    next user2 hfu =>
      split at h
      · exact absurd h (by simp)
      next hpen =>
        split at h
        · exact absurd h (by simp)
        next hcnt =>
          split at h
          · exact absurd h (by simp)
          next hav =>
            simp only [Except.ok.injEq, Prod.mk.injEq] at h
            obtain ⟨hu, hb⟩ := h
            subst hu; subst hb
            exact ⟨hfb, hfu, not_le.mp hpen, not_le.mp hcnt, not_le.mp hav⟩

theorem returnValidate_ok (s : LibState) (userId borrowId : Nat) (borrow : Borrow)
    (h : returnValidate s userId borrowId = Except.ok borrow) :
    findOpenBorrow s.borrows borrowId = some borrow ∧ borrow.user_id = userId := by
  unfold returnValidate at h
  split at h
  · exact absurd h (by simp)
  next b hfb =>
    split at h
    · exact absurd h (by simp)
    next hown =>
      simp only [Except.ok.injEq] at h
      subst h
      exact ⟨hfb, not_ne_iff.mp hown⟩

/-! ### Preservation of the state invariant -/

theorem libInv_createBorrow (s : LibState) (userId bookId : Nat) (now : Int)
    (h : LibInv s) : LibInv (createBorrow s userId bookId now).1 := by
  obtain ⟨hnd, hbound, hbooks⟩ := h
  unfold createBorrow
  split
  · exact ⟨hnd, hbound, hbooks⟩
  next user book hval =>
    obtain ⟨hfb, hfu, hpen, hcnt, hav⟩ := borrowValidate_ok s userId bookId user book hval
    obtain ⟨hbmem, hbid⟩ := findBook_eq_some s.books bookId book hfb
    unfold borrowCreate
    dsimp only
    split
    · exact ⟨hnd, hbound, hbooks⟩
    next msgs hmsg =>
      dsimp only
      refine ⟨?_, ?_, ?_⟩
      · show ((s.borrows ++ [_]).map Borrow.id).Nodup
        rw [List.map_append]
        rw [List.nodup_append]
        refine ⟨hnd, List.nodup_singleton _, ?_⟩
        intro a ha hmem
        simp only [List.map_cons, List.map_nil, List.mem_singleton] at hmem
        rcases List.mem_map.mp ha with ⟨x, hx, hxa⟩
        have := hbound x hx
        omega
      · intro b hb
        show b.id < s.next_borrow_id + 1
        rcases List.mem_append.mp hb with hb1 | hb2
        · have := hbound b hb1
          omega
        · simp only [List.mem_singleton] at hb2
          rw [hb2]
          show s.next_borrow_id < s.next_borrow_id + 1
          omega
      · intro bk hbk
        rcases mem_updateBook s.books _ bk hbk with hbk1 | ⟨hbk2, hbkne⟩
        · -- the decremented book
          subst hbk1
          obtain ⟨h0, hsum⟩ := hbooks book hbmem
          rw [openCountForBook_append]
          have hcond : ((⟨s.next_borrow_id, user.id, book.id, now,
              now + 14 * secondsPerDay, none⟩ : Borrow).book_id == book.id &&
              (⟨s.next_borrow_id, user.id, book.id, now,
              now + 14 * secondsPerDay, none⟩ : Borrow).return_date.isNone) = true := by
            simp
          rw [if_pos hcond]
          constructor
          · show (0 : Int) ≤ book.available_copies - 1
            omega
          · show book.available_copies - 1 +
              ((openCountForBook s.borrows book.id + 1 : Nat) : Int) ≤ book.total_copies
            push_cast
            omega
        · -- untouched book rows
          obtain ⟨h0, hsum⟩ := hbooks bk hbk2
          rw [openCountForBook_append]
          have hcond : ¬ ((⟨s.next_borrow_id, user.id, book.id, now,
              now + 14 * secondsPerDay, none⟩ : Borrow).book_id == bk.id &&
              (⟨s.next_borrow_id, user.id, book.id, now,
              now + 14 * secondsPerDay, none⟩ : Borrow).return_date.isNone) = true := by
            have hbkne2 : bk.id ≠ book.id := hbkne
            simp only [Bool.and_eq_true, beq_iff_eq, Option.isNone_none]
            intro hcon
            exact hbkne2 hcon.1.symm
          rw [if_neg hcond]
          exact ⟨h0, hsum⟩

theorem libInv_returnSave (s : LibState) (borrowId : Nat) (now : Int)
    (borrow : Borrow)
    (h : LibInv s)
    (hopen : findOpenBorrow s.borrows borrowId = some borrow) :
    LibInv (returnSave s borrowId now).1 := by
  obtain ⟨hnd, hbound, hbooks⟩ := h
  obtain ⟨hbmem, hbid, hbopen⟩ := findOpenBorrow_eq_some s.borrows borrowId borrow hopen
  have hfind : findBorrow s.borrows borrowId = some borrow :=
    findOpenBorrow_imp_findBorrow s.borrows borrowId borrow hnd hopen
  unfold returnSave
  rw [hfind]
  dsimp only
  split
  next book user hfbk hfu =>
    dsimp only
    obtain ⟨hbkmem, hbkid⟩ := findBook_eq_some s.books borrow.book_id book hfbk
    have hcount := openCountForBook_close s.borrows borrowId borrow
      { borrow with return_date := some now } hnd hopen rfl rfl
    refine ⟨?_, ?_, ?_⟩
    · show ((updateBorrow s.borrows _).map Borrow.id).Nodup
      rw [updateBorrow_map_id]
      exact hnd
    · intro b hb
      show b.id < s.next_borrow_id
      rcases mem_updateBorrow s.borrows _ b hb with hb1 | hb2
      · rw [hb1]
        show borrow.id < s.next_borrow_id
        exact hbound borrow hbmem
      · exact hbound b hb2
    · intro bk hbk
      rcases mem_updateBook s.books _ bk hbk with hbk1 | ⟨hbk2, hbkne⟩
      · subst hbk1
        obtain ⟨h0, hsum⟩ := hbooks book hbkmem
        have hc := hcount book.id
        rw [if_pos hbkid.symm] at hc
        constructor
        · show (0 : Int) ≤ book.available_copies + 1
          omega
        · show book.available_copies + 1 +
            ((openCountForBook (updateBorrow s.borrows _) book.id : Nat) : Int) ≤
              book.total_copies
          omega
      · obtain ⟨h0, hsum⟩ := hbooks bk hbk2
        have hbkne2 : bk.id ≠ book.id := hbkne
        have hc := hcount bk.id
        rw [if_neg (by rw [← hbkid]; exact fun hcon => hbkne2 hcon.symm)] at hc
        refine ⟨h0, ?_⟩
        show bk.available_copies +
            ((openCountForBook (updateBorrow s.borrows
              { borrow with return_date := some now }) bk.id : Nat) : Int) ≤
          bk.total_copies
        omega
  next hdefault =>
    exact ⟨hnd, hbound, hbooks⟩

theorem libInv_createReturn (s : LibState) (userId borrowId : Nat) (now : Int)
    (h : LibInv s) : LibInv (createReturn s userId borrowId now).1 := by
  unfold createReturn
  split
  · exact h
  next borrow hval =>
    obtain ⟨hopen, _⟩ := returnValidate_ok s userId borrowId borrow hval
    have := libInv_returnSave s borrowId now borrow h hopen
    split
    next s2 b heq => rw [heq] at this; exact this
    next s2 heq => rw [heq] at this; exact this

theorem libInv_step (s : LibState) (op : Op) (h : LibInv s) : LibInv (step s op) := by
  cases op with
  | borrowOp u b n => exact libInv_createBorrow s u b n h
  | returnOp u b n => exact libInv_createReturn s u b n h

theorem libInv_run (s : LibState) (ops : List Op) (h : LibInv s) :
    LibInv (run s ops) := by
  induction ops generalizing s with
  | nil => exact h
  | cons op rest ih => exact ih (step s op) (libInv_step s op h)

/-- Explicit form of `ReturnSerializer.save` when the three row fetches
succeed. -/
theorem returnSave_eq (s : LibState) (borrowId : Nat) (now : Int)
    (borrow : Borrow) (book : Book) (user : User)
    (hfind : findBorrow s.borrows borrowId = some borrow)
    (hbook : findBook s.books borrow.book_id = some book)
    (huser : findUser s.users borrow.user_id = some user) :
    returnSave s borrowId now =
      ({ s with
          borrows := updateBorrow s.borrows { borrow with return_date := some now },
          books := updateBook s.books
            { book with available_copies := book.available_copies + 1 },
          users := updateUser s.users
            (if borrow.due_date < now then
              { user with penalty_points :=
                  user.penalty_points + max (Int.fdiv (now - borrow.due_date) secondsPerDay) 0 * 2 }
            else user) },
       some { borrow with return_date := some now }) := by
  unfold returnSave
  rw [hfind]
  dsimp only
  rw [hbook, huser]

/-- `ReturnSerializer.save` never touches the outbox (its `borrow.save()`
fires the receiver with `created = False`). -/
theorem returnSave_outbox (s : LibState) (borrowId : Nat) (now : Int) :
    (returnSave s borrowId now).1.outbox = s.outbox := by
  unfold returnSave
  split
  · rfl
  next borrow heq =>
    dsimp only
    split
    · rfl
    · rfl

/-- A freshly appended open borrow is the one found by id when no earlier
row carries its id. -/
theorem findOpenBorrow_append_fresh (l : List Borrow) (b : Borrow)
    (hopen : b.return_date = none)
    (hfresh : ∀ x ∈ l, x.id ≠ b.id) :
    findOpenBorrow (l ++ [b]) b.id = some b := by
  unfold findOpenBorrow
  rw [List.find?_append]
  have h1 : l.find? (fun x => x.id == b.id && x.return_date.isNone) = none := by
    rw [List.find?_eq_none]
    intro x hx
    simp only [Bool.and_eq_true, beq_iff_eq]
    intro hcon
    exact absurd hcon.1 (hfresh x hx)
  rw [h1]
  simp [hopen]

/-- Same, for the unfiltered fetch in `save`. -/
theorem findBorrow_append_fresh (l : List Borrow) (b : Borrow)
    (hfresh : ∀ x ∈ l, x.id ≠ b.id) :
    findBorrow (l ++ [b]) b.id = some b := by
  unfold findBorrow
  rw [List.find?_append]
  have h1 : l.find? (fun x => x.id == b.id) = none := by
    rw [List.find?_eq_none]
    intro x hx
    simp only [beq_iff_eq]
    exact hfresh x hx
  rw [h1]
  simp

/-! ### The claims -/

/-- C1: for every book and every state reachable from an invariant-satisfying
initial state by any sequence of `CreateBorrow` and `CreateReturn`
operations, `0 ≤ available_copies ≤ total_copies` holds (every operation
preserves both bounds). -/
theorem c1_inventory_bounds (s0 : LibState) (h : LibInv s0) (ops : List Op) :
    ∀ bk ∈ (run s0 ops).books,
      0 ≤ bk.available_copies ∧ bk.available_copies ≤ bk.total_copies := by
  obtain ⟨-, -, hbooks⟩ := libInv_run s0 ops h
  intro bk hbk
  obtain ⟨h0, hsum⟩ := hbooks bk hbk
  refine ⟨h0, ?_⟩
  omega

/-- C1 witness: a concrete run (borrow then return) keeps the bounds. -/
theorem c1_inventory_bounds_witness :
    LibInv wState ∧
      ∀ bk ∈ (run wState [Op.borrowOp 1 1 1000, Op.returnOp 1 1 2000]).books,
        0 ≤ bk.available_copies ∧ bk.available_copies ≤ bk.total_copies :=
  ⟨by decide, c1_inventory_bounds wState (by decide) _⟩

/-- C2: every borrow created by a successful `CreateBorrow` has
`due_date = borrow_date + 14 days` (both are server-computed in
`BorrowSerializer.create`; the serializer marks `due_date` read-only, and
`createBorrow` takes no client-supplied dates). -/
theorem c2_due_date (s : LibState) (userId bookId : Nat) (now : Int)
    (s2 : LibState) (borrow : Borrow)
    (h : createBorrow s userId bookId now = (s2, Except.ok borrow)) :
    borrow.due_date = borrow.borrow_date + 14 * secondsPerDay := by
  unfold createBorrow at h
  split at h
  · simp at h
  next user book hval =>
    unfold borrowCreate at h
    dsimp only at h
    split at h
    · simp at h
    · simp only [Prod.mk.injEq, Except.ok.injEq] at h
      rw [← h.2]

/-- C2 witness: the concrete borrow created at time 1000 is due at
`1000 + 14 * 86400`. -/
theorem c2_due_date_witness :
    createBorrow wState 1 1 1000 = ((createBorrow wState 1 1 1000).1, Except.ok wBorrow1) ∧
      wBorrow1.due_date = wBorrow1.borrow_date + 14 * secondsPerDay :=
  ⟨by decide, c2_due_date wState 1 1 1000 (createBorrow wState 1 1 1000).1 wBorrow1 (by decide)⟩

/-- C3: a successful `CreateReturn` adds `2 * days_late` penalty points,
`days_late = max(floor((return_date - due_date) / day), 0)`, exactly when
the return is late (`due_date < return_date = now`); otherwise the user's
penalty points are unchanged. -/
theorem c3_late_penalty (s : LibState) (userId borrowId : Nat) (now : Int)
    (s2 : LibState) (b borrow : Borrow) (book : Book) (user : User)
    (hfind : findBorrow s.borrows borrowId = some borrow)
    (hbook : findBook s.books borrow.book_id = some book)
    (huser : findUser s.users borrow.user_id = some user)
    (h : createReturn s userId borrowId now = (s2, Except.ok b)) :
    (borrow.due_date < now →
      findUser s2.users borrow.user_id =
        some { user with penalty_points :=
            user.penalty_points + max (Int.fdiv (now - borrow.due_date) secondsPerDay) 0 * 2 }) ∧
    (now ≤ borrow.due_date →
      findUser s2.users borrow.user_id = some user) := by
  unfold createReturn at h
  split at h
  · simp at h
  next borrow1 hval =>
    rw [returnSave_eq s borrowId now borrow book user hfind hbook huser] at h
    dsimp only at h
    simp only [Prod.mk.injEq, Except.ok.injEq] at h
    obtain ⟨hs2, hb⟩ := h
    subst hs2
    constructor
    · intro hlt
      dsimp only
      rw [if_pos hlt]
      exact findUser_updateUser s.users borrow.user_id user _ huser rfl
    · intro hle
      dsimp only
      rw [if_neg (not_lt.mpr hle)]
      exact findUser_updateUser s.users borrow.user_id user user huser rfl

/-- C3 witness: a return six days late adds 12 penalty points; an on-time
return leaves them unchanged. -/
theorem c3_late_penalty_witness :
    findUser (createReturn wStateLate 1 1 518400).1.users 1 =
      some { wAlice with penalty_points := 12 } ∧
    findUser (createReturn wStateOneOpen 1 1 2000).1.users 1 = some wAlice :=
  ⟨((c3_late_penalty wStateLate 1 1 518400 (createReturn wStateLate 1 1 518400).1
      { id := 1, user_id := 1, book_id := 1, borrow_date := -(14 * secondsPerDay),
        due_date := 0, return_date := some 518400 }
      { id := 1, user_id := 1, book_id := 1, borrow_date := -(14 * secondsPerDay),
        due_date := 0, return_date := none }
      { id := 1, title := "B", total_copies := 5, available_copies := 4 }
      wAlice (by decide) (by decide) (by decide) (by decide)).1
        (by decide)).trans (by decide),
   ((c3_late_penalty wStateOneOpen 1 1 2000 (createReturn wStateOneOpen 1 1 2000).1
      { id := 1, user_id := 1, book_id := 1, borrow_date := 0,
        due_date := 14 * secondsPerDay, return_date := some 2000 }
      { id := 1, user_id := 1, book_id := 1, borrow_date := 0,
        due_date := 14 * secondsPerDay, return_date := none }
      { id := 1, title := "B", total_copies := 5, available_copies := 4 }
      wAlice (by decide) (by decide) (by decide) (by decide)).2
        (by decide))⟩

/-- C4: `CreateBorrow` reports the first failing precondition, in the
source order book-exists, penalty threshold, open-borrow cap, stock, and
every such failure returns the state unchanged. -/
theorem c4_borrow_error_order (s : LibState) (userId bookId : Nat) (now : Int) :
    (findBook s.books bookId = none →
      createBorrow s userId bookId now = (s, Except.error BorrowError.BookNotFound)) ∧
    (∀ user book, findBook s.books bookId = some book →
      findUser s.users userId = some user → 50 ≤ user.penalty_points →
      createBorrow s userId bookId now =
        (s, Except.error BorrowError.PenaltyLimitExceeded)) ∧
    (∀ user book, findBook s.books bookId = some book →
      findUser s.users userId = some user → user.penalty_points < 50 →
      3 ≤ openBorrowCount s.borrows userId →
      createBorrow s userId bookId now =
        (s, Except.error BorrowError.BorrowLimitExceeded)) ∧
    (∀ user book, findBook s.books bookId = some book →
      findUser s.users userId = some user → user.penalty_points < 50 →
      openBorrowCount s.borrows userId < 3 → book.available_copies ≤ 0 →
      createBorrow s userId bookId now = (s, Except.error BorrowError.OutOfStock)) := by
  refine ⟨?_, ?_, ?_, ?_⟩
  · intro hnone
    unfold createBorrow borrowValidate
    rw [hnone]
  · intro user book hfb hfu hpen
    unfold createBorrow borrowValidate
    rw [hfb, hfu]
    dsimp only
    rw [if_pos hpen]
  · intro user book hfb hfu hpen hcnt
    unfold createBorrow borrowValidate
    rw [hfb, hfu]
    dsimp only
    rw [if_neg (not_le.mpr hpen), if_pos hcnt]
  · intro user book hfb hfu hpen hcnt hav
    unfold createBorrow borrowValidate
    rw [hfb, hfu]
    dsimp only
    rw [if_neg (not_le.mpr hpen), if_neg (not_le.mpr hcnt), if_pos hav]

/-- C4 witness: each of the four failures on its concrete state. -/
theorem c4_borrow_error_order_witness :
    createBorrow wState 1 99 0 = (wState, Except.error BorrowError.BookNotFound) ∧
    createBorrow wStatePen 2 1 0 =
      (wStatePen, Except.error BorrowError.PenaltyLimitExceeded) ∧
    createBorrow wStateLim 1 1 0 =
      (wStateLim, Except.error BorrowError.BorrowLimitExceeded) ∧
    createBorrow wStateZero 1 1 0 = (wStateZero, Except.error BorrowError.OutOfStock) :=
  ⟨(c4_borrow_error_order wState 1 99 0).1 (by decide),
   (c4_borrow_error_order wStatePen 2 1 0).2.1 wBob wBook
     (by decide) (by decide) (by decide),
   (c4_borrow_error_order wStateLim 1 1 0).2.2.1 wAlice wBook
     (by decide) (by decide) (by decide) (by decide),
   (c4_borrow_error_order wStateZero 1 1 0).2.2.2 wAlice
     { id := 1, title := "B", total_copies := 5, available_copies := 0 }
     (by decide) (by decide) (by decide) (by decide) (by decide)⟩

/-- A row that is not the one `save` re-fetches survives `returnSave`. -/
theorem mem_returnSave_borrows (s : LibState) (borrowId : Nat) (now : Int)
    (b : Borrow) (hb : b ∈ s.borrows)
    (hne : ∀ x, findBorrow s.borrows borrowId = some x → b.id ≠ x.id) :
    b ∈ (returnSave s borrowId now).1.borrows := by
  unfold returnSave
  split
  · exact hb
  next borrowRec heq =>
    dsimp only
    split
    next book user hbk hu =>
      exact mem_updateBorrow_of_ne s.borrows _ b hb (hne borrowRec heq)
    next hdef =>
      exact hb

/-- C5: a closed borrow (non-null `return_date`) is terminal: it survives
every operation unchanged, and `CreateReturn` on its id — like on a
non-existent id — fails with the merged `InvalidOrAlreadyReturned` error
and leaves the state unchanged. -/
theorem c5_closed_borrow_terminal (s : LibState) (op : Op)
    (userId borrowId : Nat) (now : Int) :
    ((s.borrows.map Borrow.id).Nodup →
      ∀ b ∈ s.borrows, b.return_date ≠ none → b ∈ (step s op).borrows) ∧
    ((∀ b ∈ s.borrows, b.id = borrowId → b.return_date ≠ none) →
      createReturn s userId borrowId now =
        (s, Except.error ReturnError.InvalidOrAlreadyReturned)) := by
  constructor
  · intro hnd b hb hclosed
    cases op with
    | borrowOp u k n =>
      show b ∈ (createBorrow s u k n).1.borrows
      unfold createBorrow
      split
      · exact hb
      next user book hval =>
        unfold borrowCreate
        dsimp only
        split
        · exact hb
        · exact List.mem_append_left _ hb
    | returnOp u i n =>
      show b ∈ (createReturn s u i n).1.borrows
      unfold createReturn
      split
      · exact hb
      next borrow1 hval =>
        obtain ⟨hopen, hown⟩ := returnValidate_ok s u i borrow1 hval
        obtain ⟨hmem1, hid1, hopen1⟩ := findOpenBorrow_eq_some s.borrows i borrow1 hopen
        have hfind : findBorrow s.borrows i = some borrow1 :=
          findOpenBorrow_imp_findBorrow s.borrows i borrow1 hnd hopen
        have hne : ∀ x, findBorrow s.borrows i = some x → b.id ≠ x.id := by
          intro x hx
          rw [hfind] at hx
          have hx1 : borrow1 = x := Option.some.inj hx
          subst hx1
          intro hcon
          have hbb : b = borrow1 := List.inj_on_of_nodup_map hnd hb hmem1 hcon
          rw [hbb] at hclosed
          exact hclosed hopen1
        split
        next s2 b2 heq =>
          have hmem := mem_returnSave_borrows s i n b hb hne
          rw [heq] at hmem
          exact hmem
        next s2 heq =>
          have hmem := mem_returnSave_borrows s i n b hb hne
          rw [heq] at hmem
          exact hmem
  · intro hall
    have hnone : findOpenBorrow s.borrows borrowId = none := by
      unfold findOpenBorrow
      rw [List.find?_eq_none]
      intro x hx
      simp only [Bool.and_eq_true, beq_iff_eq, Option.isNone_iff_eq_none]
      intro hcon
      exact hall x hx hcon.1 hcon.2
    unfold createReturn returnValidate
    rw [hnone]

/-- C5 witness: the closed borrow of `wStateClosed` survives a return
request on its id, that request fails with the merged error, and so does a
request on a non-existent id. -/
theorem c5_closed_borrow_terminal_witness :
    ({ id := 1, user_id := 1, book_id := 1, borrow_date := 0,
       due_date := 14 * secondsPerDay, return_date := some 5 } : Borrow) ∈
        (step wStateClosed (Op.returnOp 1 1 9)).borrows ∧
    createReturn wStateClosed 1 1 9 =
      (wStateClosed, Except.error ReturnError.InvalidOrAlreadyReturned) ∧
    createReturn wState 1 7 9 =
      (wState, Except.error ReturnError.InvalidOrAlreadyReturned) :=
  ⟨(c5_closed_borrow_terminal wStateClosed (Op.returnOp 1 1 9) 1 1 9).1
      (by decide) _ (by decide) (by decide),
   (c5_closed_borrow_terminal wStateClosed (Op.returnOp 1 1 9) 1 1 9).2 (by decide),
   (c5_closed_borrow_terminal wState (Op.returnOp 1 7 9) 1 7 9).2 (by decide)⟩

/-- C6: the claim demands exactly one success when two `CreateReturn`
requests race on one open borrow.  The serializer runs `validate_borrow_id`
before `save`, and `save` re-fetches the borrow without re-checking
`return_date IS NULL`; under the interleaving
validate₁, validate₂, save₁, save₂ both requests pass validation against
the same state and both saves succeed, so both requests report success and
the book is incremented twice (to 6 of 5 copies). -/
theorem c6_concurrent_double_return :
    returnValidate wStateOneOpen 1 1 =
      Except.ok { id := 1, user_id := 1, book_id := 1, borrow_date := 0,
                  due_date := 14 * secondsPerDay, return_date := none } ∧
    (returnSave wStateOneOpen 1 2000).2.isSome = true ∧
    (returnSave (returnSave wStateOneOpen 1 2000).1 1 2100).2.isSome = true ∧
    findBook (returnSave (returnSave wStateOneOpen 1 2000).1 1 2100).1.books 1 =
      some { id := 1, title := "B", total_copies := 5, available_copies := 6 } := by
  decide

/-- C7: a successful `CreateBorrow` followed immediately by a successful
`CreateReturn` on the borrow it produced restores the book's
`available_copies` to the pre-borrow value (the decrement and increment
cancel). -/
theorem c7_round_trip (s : LibState) (userId bookId : Nat) (now now2 : Int)
    (s1 : LibState) (borrow : Borrow) (book : Book)
    (hfresh : ∀ x ∈ s.borrows, x.id ≠ s.next_borrow_id)
    (hfb : findBook s.books bookId = some book)
    (h : createBorrow s userId bookId now = (s1, Except.ok borrow)) :
    ∃ s2 b2 book2, createReturn s1 userId borrow.id now2 = (s2, Except.ok b2) ∧
      findBook s2.books bookId = some book2 ∧
      book2.available_copies = book.available_copies := by
  unfold createBorrow at h
  split at h
  · simp at h
  next user bookv hval =>
    obtain ⟨hfb2, hfu, hpen, hcnt, hav⟩ :=
      borrowValidate_ok s userId bookId user bookv hval
    rw [hfb] at hfb2
    have hbv : book = bookv := Option.some.inj hfb2
    subst hbv
    obtain ⟨humem, huid⟩ := findUser_eq_some s.users userId user hfu
    obtain ⟨hbmem, hbid⟩ := findBook_eq_some s.books bookId book hfb
    unfold borrowCreate at h
    dsimp only at h
    split at h
    · simp at h
    next msgs hmsg =>
      simp only [Prod.mk.injEq, Except.ok.injEq] at h
      obtain ⟨hs1, hbor⟩ := h
      have hborrows : s1.borrows = s.borrows ++
          [{ id := s.next_borrow_id, user_id := user.id, book_id := book.id,
             borrow_date := now, due_date := now + 14 * secondsPerDay,
             return_date := none }] := by rw [← hs1]
      have hbooks1 : s1.books =
          updateBook s.books { book with available_copies := book.available_copies - 1 } := by
        rw [← hs1]
      have husers1 : s1.users = s.users := by rw [← hs1]
      have hbeq : borrow =
          { id := s.next_borrow_id, user_id := user.id, book_id := book.id,
            borrow_date := now, due_date := now + 14 * secondsPerDay,
            return_date := none } := by
        rw [← hbor]
      have hopen1 : findOpenBorrow s1.borrows borrow.id = some borrow := by
        rw [hborrows, hbeq]
        exact findOpenBorrow_append_fresh s.borrows _ rfl hfresh
      have hfind1 : findBorrow s1.borrows borrow.id = some borrow := by
        rw [hborrows, hbeq]
        exact findBorrow_append_fresh s.borrows _ hfresh
      have hbook1 : findBook s1.books borrow.book_id =
          some { book with available_copies := book.available_copies - 1 } := by
        rw [hbooks1, hbeq]
        exact findBook_updateBook s.books book.id book _ (by rw [hbid]; exact hfb) rfl
      have huser1 : findUser s1.users borrow.user_id = some user := by
        rw [husers1, hbeq]
        show findUser s.users user.id = some user
        rw [huid]
        exact hfu
      have howner : borrow.user_id = userId := by rw [hbeq]; exact huid
      have hval2 : returnValidate s1 userId borrow.id = Except.ok borrow := by
        unfold returnValidate
        rw [hopen1]
        dsimp only
        rw [if_neg (not_ne_iff.mpr howner)]
      have hsave := returnSave_eq s1 borrow.id now2 borrow
        { book with available_copies := book.available_copies - 1 } user
        hfind1 hbook1 huser1
      refine ⟨(returnSave s1 borrow.id now2).1,
        { borrow with return_date := some now2 },
        { book with available_copies := book.available_copies - 1 + 1 },
        ?_, ?_, ?_⟩
      · unfold createReturn
        rw [hval2]
        dsimp only
        rw [hsave]
      · rw [hsave]
        dsimp only
        rw [hbooks1]
        exact findBook_updateBook
          (updateBook s.books { book with available_copies := book.available_copies - 1 })
          bookId { book with available_copies := book.available_copies - 1 }
          { book with available_copies := book.available_copies - 1 + 1 }
          (findBook_updateBook s.books bookId book
            { book with available_copies := book.available_copies - 1 } hfb rfl) rfl
      · show book.available_copies - 1 + 1 = book.available_copies
        omega

/-- C7 witness: borrowing and returning the sample book restores its five
available copies. -/
theorem c7_round_trip_witness :
    (∀ x ∈ wState.borrows, x.id ≠ wState.next_borrow_id) ∧
    findBook wState.books 1 = some wBook ∧
    createBorrow wState 1 1 1000 =
      ((createBorrow wState 1 1 1000).1, Except.ok wBorrow1) ∧
    ∃ s2 b2 book2,
      createReturn (createBorrow wState 1 1 1000).1 1 wBorrow1.id 2000 =
        (s2, Except.ok b2) ∧
      findBook s2.books 1 = some book2 ∧
      book2.available_copies = wBook.available_copies :=
  ⟨by decide, by decide, by decide,
   c7_round_trip wState 1 1 1000 2000 (createBorrow wState 1 1 1000).1 wBorrow1 wBook
     (by decide) (by decide) (by decide)⟩

/-- C8: when the acting user's email is missing or fails the pattern,
`CreateBorrow` never succeeds and never mutates state: if the four
validation checks pass it fails with `InvalidNotificationTarget` (the
`ValidationError` of the `post_save` receiver rolls the atomic block
back); an earlier validation failure reports its own error, still with no
state change. -/
theorem c8_invalid_email (s : LibState) (userId bookId : Nat) (now : Int)
    (user : User)
    (hfu : findUser s.users userId = some user)
    (hbad : emailValid user.email = false) :
    (∀ book, borrowValidate s userId bookId = Except.ok (user, book) →
      createBorrow s userId bookId now =
        (s, Except.error BorrowError.InvalidNotificationTarget)) ∧
    ((createBorrow s userId bookId now).1 = s ∧
      ∀ b, (createBorrow s userId bookId now).2 ≠ Except.ok b) := by
  have hsend : ∀ borrow book2, ∃ e,
      send_due_date_notification true user borrow book2 = Except.error e := by
    intro borrow book2
    unfold send_due_date_notification
    by_cases he : (user.email == "") = true
    · exact ⟨NotifError.MissingEmail, by rw [if_pos rfl, if_pos he]⟩
    · refine ⟨NotifError.InvalidEmail, ?_⟩
      rw [if_pos rfl, if_neg he,
        if_pos (show (!emailValid user.email) = true by rw [hbad]; rfl)]
  constructor
  · intro book hval
    unfold createBorrow
    rw [hval]
    unfold borrowCreate
    dsimp only
    obtain ⟨e, he⟩ := hsend
      { id := s.next_borrow_id, user_id := user.id, book_id := book.id,
        borrow_date := now, due_date := now + 14 * secondsPerDay,
        return_date := none }
      { book with available_copies := book.available_copies - 1 }
    rw [he]
  · cases hv : borrowValidate s userId bookId with
    | error e =>
      unfold createBorrow
      rw [hv]
      exact ⟨rfl, fun b => by simp⟩
    | ok p =>
      obtain ⟨user1, book1⟩ := p
      have huser1 : user1 = user := by
        obtain ⟨hfb1, hfu1, -, -, -⟩ :=
          borrowValidate_ok s userId bookId user1 book1 hv
        rw [hfu] at hfu1
        exact (Option.some.inj hfu1).symm
      subst huser1
      unfold createBorrow
      rw [hv]
      unfold borrowCreate
      dsimp only
      obtain ⟨e, he⟩ := hsend
        { id := s.next_borrow_id, user_id := user1.id, book_id := book1.id,
          borrow_date := now, due_date := now + 14 * secondsPerDay,
          return_date := none }
        { book1 with available_copies := book1.available_copies - 1 }
      rw [he]
      exact ⟨rfl, fun b => by simp⟩

/-- C8 witness: the user with email "bad" passes the four validation
checks but the borrow fails with `InvalidNotificationTarget`, with no
state change and no success. -/
theorem c8_invalid_email_witness :
    createBorrow wStateBad 3 1 0 =
      (wStateBad, Except.error BorrowError.InvalidNotificationTarget) ∧
    ((createBorrow wStateBad 3 1 0).1 = wStateBad ∧
      ∀ b, (createBorrow wStateBad 3 1 0).2 ≠ Except.ok b) :=
  ⟨(c8_invalid_email wStateBad 3 1 0 wMallory (by decide) (by decide)).1 wBook
      (by decide),
   (c8_invalid_email wStateBad 3 1 0 wMallory (by decide) (by decide)).2⟩

/-- C9: a successful `CreateBorrow` appends exactly one notification to
the outbox; `CreateReturn` (which saves the borrow as an update) never
changes the outbox; and the receiver invoked with `created = False` sends
nothing. -/
theorem c9_notification_exactly_once (s : LibState) (userId bookId borrowId : Nat)
    (now : Int) :
    (∀ s2 b, createBorrow s userId bookId now = (s2, Except.ok b) →
      s2.outbox.length = s.outbox.length + 1) ∧
    (∀ s2 r, createReturn s userId borrowId now = (s2, r) →
      s2.outbox = s.outbox) ∧
    (∀ user borrow book,
      send_due_date_notification false user borrow book = Except.ok []) := by
  refine ⟨?_, ?_, ?_⟩
  · intro s2 b h
    unfold createBorrow at h
    split at h
    · simp at h
    next user book hval =>
      unfold borrowCreate at h
      dsimp only at h
      split at h
      · simp at h
      next msgs hmsg =>
        unfold send_due_date_notification at hmsg
        rw [if_pos rfl] at hmsg
        split at hmsg
        · simp at hmsg
        · split at hmsg
          · simp at hmsg
          · simp only [Except.ok.injEq] at hmsg
            simp only [Prod.mk.injEq] at h
            obtain ⟨hs2, -⟩ := h
            subst hs2
            dsimp only
            rw [← hmsg]
            simp
  · intro s2 r h
    unfold createReturn at h
    split at h
    · simp only [Prod.mk.injEq] at h
      rw [← h.1]
    next borrow hval =>
      split at h
      next s2x bx heq =>
        simp only [Prod.mk.injEq] at h
        rw [← h.1]
        have hout := returnSave_outbox s borrowId now
        rw [heq] at hout
        exact hout
      next s2x heq =>
        simp only [Prod.mk.injEq] at h
        rw [← h.1]
        have hout := returnSave_outbox s borrowId now
        rw [heq] at hout
        exact hout
  · intro user borrow book
    rfl

/-- C9 witness: one mail for a concrete successful borrow, none for a
concrete successful return, none from an update-save. -/
theorem c9_notification_exactly_once_witness :
    (createBorrow wState 1 1 1000).1.outbox.length = wState.outbox.length + 1 ∧
    (createReturn wStateOneOpen 1 1 2000).1.outbox = wStateOneOpen.outbox ∧
    send_due_date_notification false wAlice wBorrow1 wBook = Except.ok [] :=
  ⟨(c9_notification_exactly_once wState 1 1 1 1000).1
      (createBorrow wState 1 1 1000).1 wBorrow1 (by decide),
   (c9_notification_exactly_once wStateOneOpen 1 1 1 2000).2.1
      (createReturn wStateOneOpen 1 1 2000).1
      (createReturn wStateOneOpen 1 1 2000).2 rfl,
   (c9_notification_exactly_once wState 1 1 1 0).2.2 wAlice wBorrow1 wBook⟩

/-- C10: a successful `CreateReturn` changes only the borrow's
`return_date`, the book's `available_copies` (by one) and the user's
`penalty_points`; the borrow's dates and references, the book's
`total_copies`, the other rows, the id counter and the outbox are
untouched. -/
theorem c10_return_frame (s : LibState) (userId borrowId : Nat) (now : Int)
    (s2 : LibState) (b borrow : Borrow) (book : Book) (user : User)
    (hfind : findBorrow s.borrows borrowId = some borrow)
    (hbook : findBook s.books borrow.book_id = some book)
    (huser : findUser s.users borrow.user_id = some user)
    (h : createReturn s userId borrowId now = (s2, Except.ok b)) :
    b.borrow_date = borrow.borrow_date ∧ b.due_date = borrow.due_date ∧
    b.user_id = borrow.user_id ∧ b.book_id = borrow.book_id ∧
    b.return_date = some now ∧
    ∃ p : Int,
      s2 = { s with
        borrows := updateBorrow s.borrows { borrow with return_date := some now },
        books := updateBook s.books
          { book with available_copies := book.available_copies + 1 },
        users := updateUser s.users { user with penalty_points := p } } := by
  unfold createReturn at h
  split at h
  · simp at h
  next borrow1 hval =>
    rw [returnSave_eq s borrowId now borrow book user hfind hbook huser] at h
    dsimp only at h
    simp only [Prod.mk.injEq, Except.ok.injEq] at h
    obtain ⟨hs2, hb⟩ := h
    subst hs2
    rw [← hb]
    refine ⟨rfl, rfl, rfl, rfl, rfl, ?_⟩
    by_cases hc : borrow.due_date < now
    · refine ⟨user.penalty_points +
        max (Int.fdiv (now - borrow.due_date) secondsPerDay) 0 * 2, ?_⟩
      rw [if_pos hc]
    · refine ⟨user.penalty_points, ?_⟩
      rw [if_neg hc]

/-- C10 witness: the concrete return changes exactly the three fields. -/
theorem c10_return_frame_witness :
    ∃ p : Int,
      (createReturn wStateOneOpen 1 1 2000).1 =
        { wStateOneOpen with
          borrows := updateBorrow wStateOneOpen.borrows
            { id := 1, user_id := 1, book_id := 1, borrow_date := 0,
              due_date := 14 * secondsPerDay, return_date := some 2000 },
          books := updateBook wStateOneOpen.books
            { id := 1, title := "B", total_copies := 5,
              available_copies := 4 + 1 },
          users := updateUser wStateOneOpen.users
            { wAlice with penalty_points := p } } :=
  (c10_return_frame wStateOneOpen 1 1 2000 (createReturn wStateOneOpen 1 1 2000).1
    { id := 1, user_id := 1, book_id := 1, borrow_date := 0,
      due_date := 14 * secondsPerDay, return_date := some 2000 }
    { id := 1, user_id := 1, book_id := 1, borrow_date := 0,
      due_date := 14 * secondsPerDay, return_date := none }
    { id := 1, title := "B", total_copies := 5, available_copies := 4 }
    wAlice (by decide) (by decide) (by decide) (by decide)).2.2.2.2.2
